import Mathlib

/-!
Shallow embedding of the world synchronization layer of `src/world.js`
(toolmax-vanillajs): entity categories (known / static / dynamic), the
change-feed broadcasts (`afterAdd` / `afterRemove`), the render-info
extractor, the tick broadcaster, the spawner and the connection manager.

JavaScript numbers are modelled as rationals, `Math.round` as
`fun q => Int.floor (q + 1/2)` (round half toward positive infinity),
and the single-or-array arguments of `renderInfo` / the composite events
as a sum type `Body ⊕ List Body`.
-/

namespace ToolmaxWorld

/-- String constant for the player shape tag. -/
def playerShape : String := "player"

/-- String constant for the bag shape tag. -/
def bagShape : String := "bag"

/-- Nickname constant used in concrete scenarios. -/
def bobNick : String := "bob"

/-- Nickname constant used in concrete scenarios. -/
def aliceNick : String := "alice"

/-- A 2-dimensional vector, as used for body positions. -/
structure Vec where
  x : ℚ
  y : ℚ
deriving DecidableEq

/-- A Matter.js body as created in `world.js`.  `id` is the unique id the
engine assigns at creation.  Optional fields model JavaScript properties
that are only set on some bodies (`shape` is absent on the terrain body,
`nickname`/`health`/`tokens` only exist on players, `points` only on
bags). -/
structure Body where
  id : Nat
  position : Vec
  angle : ℚ
  isSleeping : Bool
  isStatic : Bool
  isSensor : Bool
  mass : ℚ
  friction : ℚ
  shape : Option String
  nickname : Option String
  health : Option Int
  tokens : Option Int
  sword : Option Int
  shield : Option Int
  points : Option Int
deriving DecidableEq

/-- The record `renderInfo` produces for one body: `{id, shape, position}`
plus `angle` only when present (modelled with `Option`). -/
structure RenderRecord where
  id : Nat
  shape : Option String
  position : Vec
  angle : Option ℚ
deriving DecidableEq

/-- `[].concat(object)` from `renderInfo`: a single body becomes a
one-element list, an array stays as it is. -/
def concatObject (object : Body ⊕ List Body) : List Body :=
  match object with
  | Sum.inl b => [b]
  | Sum.inr bs => bs

/-- The projection of one body inside `renderInfo`: `{id, shape, position}`,
plus `angle` exactly when `body.shape === 'player'`. -/
def renderInfoBody (body : Body) : RenderRecord :=
  { id := body.id
    shape := body.shape
    position := body.position
    angle := if body.shape = some playerShape then some body.angle else none }

/-- `renderInfo(object)` from `world.js`: flatten the single-or-array
argument and map each body to its render record. -/
def renderInfo (object : Body ⊕ List Body) : List RenderRecord :=
  (concatObject object).map renderInfoBody

/-- Payload of an `add` message: either a bare record (a plain JS object)
or a sequence of records (a JS array). -/
inductive AddPayload where
  | one (record : RenderRecord)
  | many (records : List RenderRecord)
deriving DecidableEq

/-- Payload of a `remove` message: a bare id or a sequence of ids. -/
inductive RemovePayload where
  | one (i : Nat)
  | many (ids : List Nat)
deriving DecidableEq

/-- Whether an `add` payload is a bare (unwrapped) record. -/
def AddPayload.isBare : AddPayload → Bool
  | AddPayload.one _ => true
  | AddPayload.many _ => false

/-- Whether a `remove` payload is a bare (unwrapped) id. -/
def RemovePayload.isBare : RemovePayload → Bool
  | RemovePayload.one _ => true
  | RemovePayload.many _ => false

/-- The `afterAdd` listener of `world.js`:
`io.emit('add', info.length === 1 ? info[0] : info)`. -/
def afterAdd (object : Body ⊕ List Body) : AddPayload :=
  match renderInfo object with
  | [record] => AddPayload.one record
  | info => AddPayload.many info

/-- The `afterRemove` listener of `world.js`:
`io.emit('remove', Array.isArray(object) ? object.map(b => b.id) : object.id)`. -/
def afterRemove (object : Body ⊕ List Body) : RemovePayload :=
  match object with
  | Sum.inl b => RemovePayload.one b.id
  | Sum.inr bs => RemovePayload.many (bs.map Body.id)

/-- `Math.round` on a rational: round half toward positive infinity. -/
def jsRound (q : ℚ) : Int := Int.floor (q + 1/2)

/-- `Math.round(q * 100) / 100`: round to two decimal places, as used for
the angle in `emitRegularUpdates`. -/
def round2 (q : ℚ) : ℚ := (jsRound (q * 100) : ℚ) / 100

/-- One element of the tick broadcaster's `update` payload:
`{i, x, y, r}`. -/
structure UpdateRecord where
  i : Nat
  x : Int
  y : Int
  r : ℚ
deriving DecidableEq

/-- The record `emitRegularUpdates` builds for one awake dynamic body. -/
def updateRecord (b : Body) : UpdateRecord :=
  { i := b.id
    x := jsRound b.position.x
    y := jsRound b.position.y
    r := round2 b.angle }

/-- The `gamestate` computed each tick:
`dynamic.bodies.flatMap(b => b.isSleeping ? [] : {i, x, y, r})`. -/
def gamestate (bodies : List Body) : List UpdateRecord :=
  bodies.flatMap fun b => if b.isSleeping then [] else [updateRecord b]

/-- The player body built by the `join` handler
(`Bodies.fromVertices(0, -300, ..., {mass: 0.5, friction: 0.01,
shape: 'player', nickname, health: 100, tokens: 100, sword: 0,
shield: 0})`), with `i` the id the engine assigns. -/
def createPlayer (i : Nat) (nickname : String) : Body :=
  { id := i
    position := { x := 0, y := -300 }
    angle := 0
    isSleeping := false
    isStatic := false
    isSensor := false
    mass := 1/2
    friction := 1/100
    shape := some playerShape
    nickname := some nickname
    health := some 100
    tokens := some 100
    sword := some 0
    shield := some 0
    points := none }

/-- `createBag(x, y, points, sword, shield)` from `world.js`. -/
def createBag (i : Nat) (x y points sword shield : Int) : Body :=
  { id := i
    position := { x := x, y := y }
    angle := 0
    isSleeping := false
    isStatic := true
    isSensor := true
    mass := 1/10
    friction := 1/1000
    shape := some bagShape
    nickname := none
    health := none
    tokens := none
    sword := some sword
    shield := some shield
    points := some points }

/-- The terrain body added to the world at bootstrap (a `known` body): it
carries no `shape` property and is never announced to clients. -/
def terrainBody : Body :=
  { id := 0
    position := { x := 0, y := 0 }
    angle := 0
    isSleeping := false
    isStatic := true
    isSensor := false
    mass := 1
    friction := 1/100
    shape := none
    nickname := none
    health := none
    tokens := none
    sword := none
    shield := none
    points := none }

/-- The server's mutable state: the engine's id counter, the three body
collections (`known` are the bodies added directly to the world composite,
`static` and `dynamic` the two observed composites), the
`socketIds` map (player id to socket id) and the per-connection `player`
closure variables (`sessions`: connection id to bound player id). -/
structure WorldState where
  nextId : Nat
  known : List Body
  static : List Body
  dynamic : List Body
  socketIds : List (Nat × Nat)
  sessions : List (Nat × Nat)
deriving DecidableEq

/-- The operations the system performs against the world state.
`spawnBag` is one firing of the spawner interval (its random draws are
parameters); `join` and `disconnect` are the socket handlers; `tick` is
one firing of `emitRegularUpdates`; `sim` is one step of the physics
engine, which may move bodies and flip sleep flags but never changes
ids. -/
inductive Op where
  | spawnBag (x y points sword shield : Int)
  | join (conn : Nat) (nickname : String)
  | disconnect (conn : Nat)
  | tick
  | sim (pos : Nat → Vec) (ang : Nat → ℚ) (slp : Nat → Bool)

/-- Messages emitted to clients: `sendId` is the `join` acknowledgement
callback, `snapshot` the private `socket.emit('add', info)` sent to the
joining connection, `addB` / `removeB` the public `io.emit` broadcasts of
the change feed, `update` the volatile tick broadcast. -/
inductive Msg where
  | sendId (conn i : Nat)
  | snapshot (conn : Nat) (payload : AddPayload)
  | addB (payload : AddPayload)
  | removeB (payload : RemovePayload)
  | update (records : List UpdateRecord)
deriving DecidableEq

/-- Whether a message is a public `add` broadcast. -/
def Msg.isAddBroadcast : Msg → Bool
  | Msg.addB _ => true
  | _ => false

/-- One physics step applied to one body: position, angle and sleep flag
may change arbitrarily, the id never does. -/
def simBody (pos : Nat → Vec) (ang : Nat → ℚ) (slp : Nat → Bool) (b : Body) : Body :=
  { b with position := pos b.id, angle := ang b.id, isSleeping := slp b.id }

/-- One step of the system.  Mirrors `world.js`:
the spawner adds a bag to `static` (firing `afterAdd`); `join` creates the
player, records the socket id, acknowledges with the player id, privately
emits the bootstrap snapshot (only when non-empty, as a JS array), and
only then publicly adds the player to `dynamic` (firing `afterAdd`);
`disconnect` is a no-op unless a player is bound, otherwise it removes the
bound player from `dynamic` (firing `afterRemove`) and forgets the
socket-id entry; `tick` emits the volatile `update`. -/
def stepOp (s : WorldState) : Op → WorldState × List Msg
  | Op.spawnBag x y points sword shield =>
    let bag := createBag s.nextId x y points sword shield
    ({ s with nextId := s.nextId + 1, static := s.static ++ [bag] },
     [Msg.addB (afterAdd (Sum.inl bag))])
  | Op.join conn nickname =>
    let player := createPlayer s.nextId nickname
    let info := renderInfo (Sum.inr (s.static ++ s.dynamic))
    ({ s with
        nextId := s.nextId + 1
        dynamic := s.dynamic ++ [player]
        socketIds := (player.id, conn) :: s.socketIds.filter (fun q => q.1 != player.id)
        sessions := (conn, player.id) :: s.sessions.filter (fun q => q.1 != conn) },
     [Msg.sendId conn player.id]
       ++ (if info.length > 0 then [Msg.snapshot conn (AddPayload.many info)] else [])
       ++ [Msg.addB (afterAdd (Sum.inl player))])
  | Op.disconnect conn =>
    match s.sessions.find? (fun q => q.1 == conn) with
    | none => (s, [])
    | some q =>
      ({ s with
          dynamic := s.dynamic.eraseP (fun b => b.id == q.2)
          socketIds := s.socketIds.filter (fun r => r.1 != q.2)
          sessions := s.sessions.filter (fun r => r.1 != conn) },
       [Msg.removeB (RemovePayload.one q.2)])
  | Op.tick => (s, [Msg.update (gamestate s.dynamic)])
  | Op.sim pos ang slp =>
    ({ s with
        known := s.known.map (simBody pos ang slp)
        static := s.static.map (simBody pos ang slp)
        dynamic := s.dynamic.map (simBody pos ang slp) }, [])

/-- The state right after `createWorld()`: the terrain is in the world
composite (a `known` body, added before the listeners could ever apply to
it — they are attached to the `static` and `dynamic` composites only),
and both observed composites are empty.  No message is emitted during
bootstrap. -/
def initialState : WorldState :=
  { nextId := 1
    known := [terrainBody]
    static := []
    dynamic := []
    socketIds := []
    sessions := [] }

/-- Run a sequence of operations from a given state, collecting the
emitted messages in order. -/
def runFrom (s : WorldState) : List Op → WorldState × List Msg
  | [] => (s, [])
  | op :: ops =>
    let r := stepOp s op
    let r2 := runFrom r.1 ops
    (r2.1, r.2 ++ r2.2)

/-- Run a sequence of operations from the bootstrap state. -/
def run (ops : List Op) : WorldState × List Msg := runFrom initialState ops

/-- The entity ids carried by an `add` payload. -/
def addPayloadIds : AddPayload → List Nat
  | AddPayload.one r => [r.id]
  | AddPayload.many rs => rs.map RenderRecord.id

/-- The entity ids carried by a `remove` payload. -/
def removePayloadIds : RemovePayload → List Nat
  | RemovePayload.one i => [i]
  | RemovePayload.many l => l

/-- The entity ids a message announces as added or removed (`add`
messages, private or broadcast, and `remove` broadcasts); `sendId` and
`update` announce no add/remove. -/
def changeFeedIds : Msg → List Nat
  | Msg.snapshot _ p => addPayloadIds p
  | Msg.addB p => addPayloadIds p
  | Msg.removeB p => removePayloadIds p
  | _ => []

/-- Two joins on the same connection without an intervening disconnect. -/
def doubleJoinOps : List Op := [Op.join 0 bobNick, Op.join 0 bobNick]

/-- The state invariant maintained by every operation: ids of static and
dynamic bodies are positive, fresh (below the engine counter) and
pairwise distinct; known bodies keep the terrain id `0`; every bound
session points at a body currently in `dynamic`; distinct connections are
bound to distinct player ids. -/
structure Inv (s : WorldState) : Prop where
  next_pos : 1 ≤ s.nextId
  known_id : ∀ b ∈ s.known, b.id = 0
  sd_lower : ∀ b ∈ s.static ++ s.dynamic, 1 ≤ b.id
  sd_upper : ∀ b ∈ s.static ++ s.dynamic, b.id < s.nextId
  sd_nodup : ((s.static ++ s.dynamic).map Body.id).Nodup
  sessions_dyn : ∀ q ∈ s.sessions, q.2 ∈ s.dynamic.map Body.id
  sessions_inj : ∀ q ∈ s.sessions, ∀ r ∈ s.sessions, q.2 = r.2 → q.1 = r.1

/-- `afterAdd` on a single (non-array) body always emits the bare record. -/
theorem afterAdd_single (b : Body) : afterAdd (Sum.inl b) = AddPayload.one (renderInfoBody b) := rfl

/-- The ids of the render records of a list of bodies are the ids of the bodies. -/
theorem renderInfo_ids (l : List Body) :
    (renderInfo (Sum.inr l)).map RenderRecord.id = l.map Body.id := by
  rw [show renderInfo (Sum.inr l) = l.map renderInfoBody from rfl, List.map_map]
  rfl

/-- `renderInfo` yields one record per input body. -/
theorem renderInfo_inr_length (l : List Body) :
    (renderInfo (Sum.inr l)).length = l.length := by
  rw [show renderInfo (Sum.inr l) = l.map renderInfoBody from rfl, List.length_map]

/-- Unfolding of one spawner firing. -/
theorem stepOp_spawnBag (s : WorldState) (x y points sword shield : Int) :
    stepOp s (Op.spawnBag x y points sword shield)
      = ({ s with
            nextId := s.nextId + 1
            static := s.static ++ [createBag s.nextId x y points sword shield] },
         [Msg.addB (afterAdd (Sum.inl (createBag s.nextId x y points sword shield)))]) := rfl

/-- Unfolding of one join handler invocation. -/
theorem stepOp_join (s : WorldState) (conn : Nat) (nickname : String) :
    stepOp s (Op.join conn nickname)
      = ({ s with
            nextId := s.nextId + 1
            dynamic := s.dynamic ++ [createPlayer s.nextId nickname]
            socketIds := (s.nextId, conn) :: s.socketIds.filter (fun q => q.1 != s.nextId)
            sessions := (conn, s.nextId) :: s.sessions.filter (fun q => q.1 != conn) },
         [Msg.sendId conn s.nextId]
           ++ (if 0 < (renderInfo (Sum.inr (s.static ++ s.dynamic))).length
               then [Msg.snapshot conn
                      (AddPayload.many (renderInfo (Sum.inr (s.static ++ s.dynamic))))]
               else [])
           ++ [Msg.addB (afterAdd (Sum.inl (createPlayer s.nextId nickname)))]) := rfl

/-- Unfolding of the disconnect handler on a connection with no session. -/
theorem stepOp_disconnect_none (s : WorldState) (conn : Nat)
    (h : s.sessions.find? (fun q => q.1 == conn) = none) :
    stepOp s (Op.disconnect conn) = (s, []) := by
  simp [stepOp, h]

/-- Unfolding of the disconnect handler on a joined connection. -/
theorem stepOp_disconnect_some (s : WorldState) (conn : Nat) (q : Nat × Nat)
    (h : s.sessions.find? (fun r => r.1 == conn) = some q) :
    stepOp s (Op.disconnect conn)
      = ({ s with
            dynamic := s.dynamic.eraseP (fun b => b.id == q.2)
            socketIds := s.socketIds.filter (fun r => r.1 != q.2)
            sessions := s.sessions.filter (fun r => r.1 != conn) },
         [Msg.removeB (RemovePayload.one q.2)]) := by
  simp [stepOp, h]

/-- Unfolding of one tick broadcast. -/
theorem stepOp_tick (s : WorldState) :
    stepOp s Op.tick = (s, [Msg.update (gamestate s.dynamic)]) := rfl

/-- Unfolding of one physics step. -/
theorem stepOp_sim (s : WorldState) (pos : Nat → Vec) (ang : Nat → ℚ) (slp : Nat → Bool) :
    stepOp s (Op.sim pos ang slp)
      = ({ s with
            known := s.known.map (simBody pos ang slp)
            static := s.static.map (simBody pos ang slp)
            dynamic := s.dynamic.map (simBody pos ang slp) }, []) := rfl

/-- Unfolding of `runFrom` on a cons. -/
theorem runFrom_cons (s : WorldState) (op : Op) (ops : List Op) :
    runFrom s (op :: ops)
      = ((runFrom (stepOp s op).1 ops).1,
         (stepOp s op).2 ++ (runFrom (stepOp s op).1 ops).2) := rfl

/-- Unfolding of `gamestate` on a cons. -/
theorem gamestate_cons (b : Body) (t : List Body) :
    gamestate (b :: t) = (if b.isSleeping then [] else [updateRecord b]) ++ gamestate t := by
  simp [gamestate]

/-- Under distinct ids, removing a body by reference (`eraseP` on its id)
is the same as filtering its id out. -/
theorem eraseP_id_eq_filter (l : List Body) (i : Nat)
    (h : (l.map Body.id).Nodup) :
    l.eraseP (fun b => b.id == i) = l.filter (fun b => b.id != i) := by
  induction l with
  | nil => rfl
  | cons b t ih =>
    rw [List.map_cons, List.nodup_cons] at h
    by_cases hb : b.id = i
    · rw [List.eraseP_cons_of_pos (by simpa using hb),
          List.filter_cons_of_neg (by simp [bne_iff_ne, hb])]
      symm
      rw [List.filter_eq_self]
      intro a ha
      simp only [bne_iff_ne]
      intro hai
      exact h.1 (List.mem_map.mpr ⟨a, ha, hai.trans hb.symm⟩)
    · rw [List.eraseP_cons_of_neg (by simpa using hb),
          List.filter_cons_of_pos (by simpa using hb)]
      rw [ih h.2]

/-- The bootstrap state satisfies the invariant. -/
theorem initialState_inv : Inv initialState := by
  refine ⟨?_, ?_, ?_, ?_, ?_, ?_, ?_⟩ <;> simp [initialState, terrainBody]

/-- Ids in the observed collections are below the engine counter. -/
theorem mem_sd_id_lt (s : WorldState) (h : Inv s) {i : Nat}
    (hi : i ∈ (s.static ++ s.dynamic).map Body.id) : i < s.nextId := by
  rcases List.mem_map.mp hi with ⟨b, hb, rfl⟩
  exact h.sd_upper b hb

/-- Ids of dynamic bodies are below the engine counter. -/
theorem mem_dyn_id_lt (s : WorldState) (h : Inv s) {i : Nat}
    (hi : i ∈ s.dynamic.map Body.id) : i < s.nextId := by
  rcases List.mem_map.mp hi with ⟨b, hb, rfl⟩
  exact h.sd_upper b (List.mem_append_right _ hb)

/-- The spawner preserves the invariant. -/
theorem inv_spawnBag (s : WorldState) (h : Inv s) (x y points sword shield : Int) :
    Inv (stepOp s (Op.spawnBag x y points sword shield)).1 := by
  rw [stepOp_spawnBag]
  refine ⟨?_, ?_, ?_, ?_, ?_, ?_, ?_⟩
  · dsimp only
    have := h.next_pos; omega
  · exact h.known_id
  · dsimp only
    intro b hb
    rcases List.mem_append.mp hb with hb1 | hb2
    · rcases List.mem_append.mp hb1 with hb3 | hb4
      · exact h.sd_lower b (List.mem_append_left _ hb3)
      · rw [List.mem_singleton] at hb4
        subst hb4
        exact h.next_pos
    · exact h.sd_lower b (List.mem_append_right _ hb2)
  · dsimp only
    intro b hb
    rcases List.mem_append.mp hb with hb1 | hb2
    · rcases List.mem_append.mp hb1 with hb3 | hb4
      · have := h.sd_upper b (List.mem_append_left _ hb3); omega
      · rw [List.mem_singleton] at hb4
        subst hb4
        exact Nat.lt_succ_self _
    · have := h.sd_upper b (List.mem_append_right _ hb2); omega
  · dsimp only
    rw [List.append_assoc, List.singleton_append, List.map_append, List.map_cons,
        List.nodup_middle, List.nodup_cons, ← List.map_append]
    exact ⟨fun hmem => absurd (mem_sd_id_lt s h hmem) (Nat.lt_irrefl _), h.sd_nodup⟩
  · exact h.sessions_dyn
  · exact h.sessions_inj

/-- The join handler preserves the invariant. -/
theorem inv_join (s : WorldState) (h : Inv s) (conn : Nat) (nickname : String) :
    Inv (stepOp s (Op.join conn nickname)).1 := by
  rw [stepOp_join]
  refine ⟨?_, ?_, ?_, ?_, ?_, ?_, ?_⟩
  · dsimp only
    have := h.next_pos; omega
  · exact h.known_id
  · dsimp only
    intro b hb
    rcases List.mem_append.mp hb with hb1 | hb2
    · exact h.sd_lower b (List.mem_append_left _ hb1)
    · rcases List.mem_append.mp hb2 with hb3 | hb4
      · exact h.sd_lower b (List.mem_append_right _ hb3)
      · rw [List.mem_singleton] at hb4
        subst hb4
        exact h.next_pos
  · dsimp only
    intro b hb
    rcases List.mem_append.mp hb with hb1 | hb2
    · have := h.sd_upper b (List.mem_append_left _ hb1); omega
    · rcases List.mem_append.mp hb2 with hb3 | hb4
      · have := h.sd_upper b (List.mem_append_right _ hb3); omega
      · rw [List.mem_singleton] at hb4
        subst hb4
        exact Nat.lt_succ_self _
  · dsimp only
    rw [show s.static ++ (s.dynamic ++ [createPlayer s.nextId nickname])
          = (s.static ++ s.dynamic) ++ [createPlayer s.nextId nickname] from
        (List.append_assoc _ _ _).symm,
      List.map_append,
      show List.map Body.id [createPlayer s.nextId nickname] = s.nextId :: [] from rfl,
      List.nodup_middle, List.append_nil, List.nodup_cons]
    exact ⟨fun hmem => absurd (mem_sd_id_lt s h hmem) (Nat.lt_irrefl _), h.sd_nodup⟩
  · dsimp only
    intro q hq
    rcases List.mem_cons.mp hq with rfl | hq2
    · rw [List.map_append]
      exact List.mem_append_right _ (List.mem_singleton.mpr rfl)
    · rw [List.map_append]
      exact List.mem_append_left _ (h.sessions_dyn q (List.mem_of_mem_filter hq2))
  · dsimp only
    intro q hq r hr heq
    rcases List.mem_cons.mp hq with rfl | hq2
    · rcases List.mem_cons.mp hr with rfl | hr2
      · rfl
      · have hlt := mem_dyn_id_lt s h (h.sessions_dyn r (List.mem_of_mem_filter hr2))
        rw [← heq] at hlt
        exact absurd hlt (Nat.lt_irrefl _)
    · rcases List.mem_cons.mp hr with rfl | hr2
      · have hlt := mem_dyn_id_lt s h (h.sessions_dyn q (List.mem_of_mem_filter hq2))
        rw [heq] at hlt
        exact absurd hlt (Nat.lt_irrefl _)
      · exact h.sessions_inj q (List.mem_of_mem_filter hq2) r (List.mem_of_mem_filter hr2) heq

/-- The disconnect handler preserves the invariant. -/
theorem inv_disconnect (s : WorldState) (h : Inv s) (conn : Nat) :
    Inv (stepOp s (Op.disconnect conn)).1 := by
  cases hf : s.sessions.find? (fun r => r.1 == conn) with
  | none =>
    rw [stepOp_disconnect_none s conn hf]
    exact h
  | some q =>
    rw [stepOp_disconnect_some s conn q hf]
    have hsub : (s.static ++ s.dynamic.eraseP (fun b => b.id == q.2)).Sublist
        (s.static ++ s.dynamic) :=
      (List.eraseP_sublist _).append_left _
    have hdn : (s.dynamic.map Body.id).Nodup := by
      have hn := h.sd_nodup
      rw [List.map_append] at hn
      exact hn.of_append_right
    refine ⟨h.next_pos, h.known_id, ?_, ?_, ?_, ?_, ?_⟩
    · intro b hb
      exact h.sd_lower b (hsub.subset hb)
    · intro b hb
      exact h.sd_upper b (hsub.subset hb)
    · exact ((hsub.map Body.id).nodup h.sd_nodup)
    · dsimp only
      intro r hr
      have hr2 := List.mem_of_mem_filter hr
      have hr1 : r.1 ≠ conn := by
        have := (List.mem_filter.mp hr).2
        simpa [bne_iff_ne] using this
      have hq1 : q.1 = conn := by
        have := List.find?_some hf
        simpa using this
      have hne : r.2 ≠ q.2 := by
        intro he
        exact hr1 (by rw [h.sessions_inj r hr2 q (List.mem_of_find?_eq_some hf) he, hq1])
      rw [eraseP_id_eq_filter s.dynamic q.2 hdn]
      rcases List.mem_map.mp (h.sessions_dyn r hr2) with ⟨b, hb, hbid⟩
      refine List.mem_map.mpr ⟨b, ?_, hbid⟩
      rw [List.mem_filter]
      refine ⟨hb, ?_⟩
      simp only [bne_iff_ne]
      rw [hbid]
      exact hne
    · intro a ha b hb heq
      exact h.sessions_inj a (List.mem_of_mem_filter ha) b (List.mem_of_mem_filter hb) heq

/-- The tick broadcaster preserves the invariant (the state is untouched). -/
theorem inv_tick (s : WorldState) (h : Inv s) : Inv (stepOp s Op.tick).1 := h

/-- A physics step preserves the invariant (ids are untouched). -/
theorem inv_sim (s : WorldState) (h : Inv s) (pos : Nat → Vec) (ang : Nat → ℚ)
    (slp : Nat → Bool) : Inv (stepOp s (Op.sim pos ang slp)).1 := by
  rw [stepOp_sim]
  have hmap : ∀ l : List Body, (l.map (simBody pos ang slp)).map Body.id = l.map Body.id := by
    intro l
    rw [List.map_map]
    rfl
  refine ⟨h.next_pos, ?_, ?_, ?_, ?_, ?_, ?_⟩
  · dsimp only
    intro b hb
    rcases List.mem_map.mp hb with ⟨a, ha, rfl⟩
    exact h.known_id a ha
  · dsimp only
    intro b hb
    rw [← List.map_append] at hb
    rcases List.mem_map.mp hb with ⟨a, ha, rfl⟩
    exact h.sd_lower a ha
  · dsimp only
    intro b hb
    rw [← List.map_append] at hb
    rcases List.mem_map.mp hb with ⟨a, ha, rfl⟩
    exact h.sd_upper a ha
  · dsimp only
    rw [← List.map_append, hmap]
    exact h.sd_nodup
  · dsimp only
    intro q hq
    rw [hmap]
    exact h.sessions_dyn q hq
  · exact h.sessions_inj

/-- Every operation preserves the invariant. -/
theorem stepOp_inv (s : WorldState) (op : Op) (h : Inv s) : Inv (stepOp s op).1 := by
  cases op with
  | spawnBag x y points sword shield => exact inv_spawnBag s h x y points sword shield
  | join conn nickname => exact inv_join s h conn nickname
  | disconnect conn => exact inv_disconnect s h conn
  | tick => exact inv_tick s h
  | sim pos ang slp => exact inv_sim s h pos ang slp

/-- The invariant holds after any run from an invariant state. -/
theorem runFrom_inv (ops : List Op) (s : WorldState) (h : Inv s) : Inv (runFrom s ops).1 := by
  induction ops generalizing s with
  | nil => exact h
  | cons op ops ih => exact ih (stepOp s op).1 (stepOp_inv s op h)

/-- The invariant holds in every reachable state. -/
theorem run_inv (ops : List Op) : Inv (run ops).1 :=
  runFrom_inv ops initialState initialState_inv

/-- Every id a single step announces as added or removed is positive. -/
theorem stepOp_ids_pos (s : WorldState) (op : Op) (h : Inv s) :
    ∀ m ∈ (stepOp s op).2, ∀ i ∈ changeFeedIds m, 1 ≤ i := by
  cases op with
  | spawnBag x y points sword shield =>
    intro m hm i hi
    rw [stepOp_spawnBag] at hm
    dsimp only at hm
    rw [List.mem_singleton] at hm
    subst hm
    simp only [changeFeedIds, afterAdd_single, addPayloadIds, List.mem_singleton] at hi
    subst hi
    exact h.next_pos
  | join conn nickname =>
    intro m hm i hi
    rw [stepOp_join] at hm
    dsimp only at hm
    simp only [List.mem_append, List.mem_singleton, List.mem_ite_nil_right] at hm
    rcases hm with (hm | ⟨_, hm⟩) | hm
    · subst hm
      simp [changeFeedIds] at hi
    · subst hm
      simp only [changeFeedIds, addPayloadIds] at hi
      rw [renderInfo_ids] at hi
      rcases List.mem_map.mp hi with ⟨b, hb, rfl⟩
      exact h.sd_lower b hb
    · subst hm
      simp only [changeFeedIds, afterAdd_single, addPayloadIds, List.mem_singleton] at hi
      subst hi
      exact h.next_pos
  | disconnect conn =>
    intro m hm i hi
    cases hf : s.sessions.find? (fun r => r.1 == conn) with
    | none =>
      rw [stepOp_disconnect_none s conn hf] at hm
      simp at hm
    | some q =>
      rw [stepOp_disconnect_some s conn q hf] at hm
      dsimp only at hm
      rw [List.mem_singleton] at hm
      subst hm
      simp only [changeFeedIds, removePayloadIds, List.mem_singleton] at hi
      subst hi
      rcases List.mem_map.mp (h.sessions_dyn q (List.mem_of_find?_eq_some hf)) with ⟨b, hb, hbid⟩
      have := h.sd_lower b (List.mem_append_right _ hb)
      omega
  | tick =>
    intro m hm i hi
    rw [stepOp_tick] at hm
    dsimp only at hm
    rw [List.mem_singleton] at hm
    subst hm
    simp [changeFeedIds] at hi
  | sim pos ang slp =>
    intro m hm i hi
    rw [stepOp_sim] at hm
    simp at hm

/-- Every id any run announces as added or removed is positive. -/
theorem runFrom_ids_pos (ops : List Op) (s : WorldState) (h : Inv s) :
    ∀ m ∈ (runFrom s ops).2, ∀ i ∈ changeFeedIds m, 1 ≤ i := by
  induction ops generalizing s with
  | nil => simp [runFrom]
  | cons op ops ih =>
    intro m hm
    rw [runFrom_cons] at hm
    dsimp only at hm
    rcases List.mem_append.mp hm with hm1 | hm2
    · exact stepOp_ids_pos s op h m hm1
    · exact ih (stepOp s op).1 (stepOp_inv s op h) m hm2

/-- Claim C1: on every join, the private bootstrap snapshot (render-info
for all static and dynamic entities existing at that moment) is emitted
strictly before the public `add` broadcast for the new player, and the
player is appended to the dynamic collection of the post-state only; the
snapshot never contains the joiner's own entity, and when no static or
dynamic entities exist no snapshot message is sent at all. -/
theorem join_snapshot_before_add (ops : List Op) (conn : Nat) (nickname : String) :
    ∃ p : Body,
      (stepOp (run ops).1 (Op.join conn nickname)).1.dynamic
          = (run ops).1.dynamic ++ [p]
        ∧ (stepOp (run ops).1 (Op.join conn nickname)).2
          = [Msg.sendId conn p.id]
            ++ (if (run ops).1.static ++ (run ops).1.dynamic = [] then []
                else [Msg.snapshot conn (AddPayload.many
                      (renderInfo (Sum.inr ((run ops).1.static ++ (run ops).1.dynamic))))])
            ++ [Msg.addB (afterAdd (Sum.inl p))]
        ∧ (renderInfo (Sum.inr ((run ops).1.static ++ (run ops).1.dynamic))).all
            (fun record => record.id != p.id) = true := by
  refine ⟨createPlayer (run ops).1.nextId nickname, ?_, ?_, ?_⟩
  · rw [stepOp_join]
  · rw [stepOp_join]
    dsimp only
    by_cases hsd : (run ops).1.static ++ (run ops).1.dynamic = []
    · simp [hsd, renderInfo, concatObject]
      rfl
    · have hlen : 0 < (renderInfo (Sum.inr ((run ops).1.static ++ (run ops).1.dynamic))).length := by
        rw [renderInfo_inr_length]
        exact List.length_pos.mpr hsd
      rw [if_pos hlen, if_neg hsd]
      rfl
  · rw [List.all_eq_true]
    intro r hr
    have hr2 : r ∈ ((run ops).1.static ++ (run ops).1.dynamic).map renderInfoBody := hr
    rcases List.mem_map.mp hr2 with ⟨b, hb, rfl⟩
    have hlt := (run_inv ops).sd_upper b hb
    simp only [bne_iff_ne]
    show b.id ≠ (run ops).1.nextId
    exact Nat.ne_of_lt hlt

/-- Claim C2 (counterexample): removing a one-element sequence of bodies
removes exactly one entity, yet the broadcast payload is the sequence
`[5]` rather than the bare id `5`: `afterRemove` branches on the argument
being a sequence, not on how many entities were removed. -/
theorem remove_one_element_sequence_not_bare :
    (concatObject (Sum.inr [createBag 5 0 0 1 2 3])).length = 1
      ∧ (afterRemove (Sum.inr [createBag 5 0 0 1 2 3])).isBare = false
      ∧ afterRemove (Sum.inr [createBag 5 0 0 1 2 3]) = RemovePayload.many [5] :=
  ⟨rfl, rfl, rfl⟩

/-- Claim C2 (amended): the `add` payload is a bare record exactly when
one render record results (a single body, or a one-element sequence) and
a sequence when two or more result; the `remove` payload is a bare id
exactly when a single non-sequence entity is removed, and a sequence of
ids — even a one-element one — whenever a sequence is removed. -/
theorem change_feed_payload_shape :
    (∀ b : Body, afterAdd (Sum.inl b) = AddPayload.one (renderInfoBody b))
      ∧ (∀ b : Body, afterAdd (Sum.inr [b]) = AddPayload.one (renderInfoBody b))
      ∧ (∀ (b₁ b₂ : Body) (bs : List Body),
          afterAdd (Sum.inr (b₁ :: b₂ :: bs))
            = AddPayload.many (renderInfo (Sum.inr (b₁ :: b₂ :: bs))))
      ∧ (∀ b : Body, afterRemove (Sum.inl b) = RemovePayload.one b.id)
      ∧ (∀ bs : List Body, afterRemove (Sum.inr bs) = RemovePayload.many (bs.map Body.id)) :=
  ⟨fun _ => rfl, fun _ => rfl, fun _ _ _ => rfl, fun _ => rfl, fun _ => rfl⟩

/-- Claim C3 (code bug): the join handler never checks whether the
connection already has a player, so a second `join` on the same
connection creates a second player entity, rebinds the session to it and
leaks the first; two public `add` broadcasts are emitted and no
`AlreadyJoined` failure exists anywhere in the code. -/
theorem double_join_creates_second_player :
    (run doubleJoinOps).1.dynamic.length = 2
      ∧ (run doubleJoinOps).1.dynamic.map Body.id = [1, 2]
      ∧ (run doubleJoinOps).1.dynamic.all (fun b => b.shape == some playerShape) = true
      ∧ (run doubleJoinOps).1.sessions = [(0, 2)]
      ∧ ((run doubleJoinOps).2.filter Msg.isAddBroadcast).length = 2 :=
  ⟨rfl, rfl, rfl, rfl, rfl⟩

/-- Claim C4: each tick broadcast carries exactly the records of the
currently awake dynamic bodies: the emitted message is
`update (gamestate dynamic)`, and `gamestate` is one `{i, x, y, r}`
record per non-sleeping body — position rounded to the nearest integer,
angle rounded to two decimals — with sleeping bodies skipped; the
sequence may be empty. -/
theorem tick_update_awake_records :
    (∀ ops : List Op,
        (stepOp (run ops).1 Op.tick).2 = [Msg.update (gamestate (run ops).1.dynamic)])
      ∧ (∀ bodies : List Body,
          gamestate bodies
            = (bodies.filter (fun b => !b.isSleeping)).map (fun b =>
                { i := b.id
                  x := jsRound b.position.x
                  y := jsRound b.position.y
                  r := (jsRound (b.angle * 100) : ℚ) / 100 })) := by
  constructor
  · intro ops
    rfl
  · intro bodies
    induction bodies with
    | nil => rfl
    | cons b t ih =>
      cases hb : b.isSleeping <;>
        simp [gamestate_cons, List.filter_cons, hb, ih, updateRecord, round2]

/-- Claim C5: entities of category `known` (the terrain created at world
initialization) never appear in any `add` or `remove` message, under
every sequence of operations: every announced id differs from every known
body's id. -/
theorem known_never_broadcast (ops : List Op) (m : Msg) (hm : m ∈ (run ops).2)
    (b : Body) (hb : b ∈ (run ops).1.known) :
    (changeFeedIds m).all (fun i => i != b.id) = true := by
  rw [List.all_eq_true]
  intro i hi
  have h1 := runFrom_ids_pos ops initialState initialState_inv m hm i hi
  have h0 := (run_inv ops).known_id b hb
  simp only [bne_iff_ne, h0]
  omega

/-- Witness for the claim C5 theorem: in the concrete run consisting of
one spawner firing, the bag's `add` broadcast never mentions the
terrain's id. -/
theorem known_never_broadcast_witness :
    (changeFeedIds (Msg.addB (afterAdd (Sum.inl (createBag 1 0 0 1 2 3))))).all
        (fun i => i != terrainBody.id) = true :=
  known_never_broadcast [Op.spawnBag 0 0 1 2 3]
    (Msg.addB (afterAdd (Sum.inl (createBag 1 0 0 1 2 3))))
    (by
      rw [show (run [Op.spawnBag 0 0 1 2 3]).2
            = [Msg.addB (afterAdd (Sum.inl (createBag 1 0 0 1 2 3)))] from rfl]
      exact List.mem_singleton.mpr rfl)
    terrainBody
    (by
      rw [show (run [Op.spawnBag 0 0 1 2 3]).1.known = [terrainBody] from rfl]
      exact List.mem_singleton.mpr rfl)

/-- Claim C6: under every sequence of operations, an entity id is never
present in more than one of the known, static and dynamic collections at
the same time: all pairwise intersections of the id lists are empty. -/
theorem category_ids_disjoint (ops : List Op) :
    ((run ops).1.known.map Body.id) ∩ ((run ops).1.static.map Body.id) = []
      ∧ ((run ops).1.known.map Body.id) ∩ ((run ops).1.dynamic.map Body.id) = []
      ∧ ((run ops).1.static.map Body.id) ∩ ((run ops).1.dynamic.map Body.id) = [] := by
  have h := run_inv ops
  refine ⟨?_, ?_, ?_⟩
  · rw [List.inter_eq_nil_iff_disjoint]
    intro i hik his
    rcases List.mem_map.mp hik with ⟨b, hb, hbid⟩
    rcases List.mem_map.mp his with ⟨c, hc, hcid⟩
    have h0 := h.known_id b hb
    have h1 := h.sd_lower c (List.mem_append_left _ hc)
    omega
  · rw [List.inter_eq_nil_iff_disjoint]
    intro i hik hid
    rcases List.mem_map.mp hik with ⟨b, hb, hbid⟩
    rcases List.mem_map.mp hid with ⟨c, hc, hcid⟩
    have h0 := h.known_id b hb
    have h1 := h.sd_lower c (List.mem_append_right _ hc)
    omega
  · rw [List.inter_eq_nil_iff_disjoint]
    have hn := h.sd_nodup
    rw [List.map_append] at hn
    exact List.disjoint_of_nodup_append hn

/-- Claim C7: `disconnect` on a connection that never completed a join is
a no-op (state unchanged, no message, no failure); on a joined connection
it removes exactly the bound player from the dynamic collection,
broadcasts the `remove` of precisely that id, and deletes the session
binding. -/
theorem disconnect_no_op_or_removes_bound (ops : List Op) (conn : Nat) :
    ((run ops).1.sessions.find? (fun q => q.1 == conn) = none →
        stepOp (run ops).1 (Op.disconnect conn) = ((run ops).1, []))
      ∧ (∀ q : Nat × Nat,
          (run ops).1.sessions.find? (fun r => r.1 == conn) = some q →
            (stepOp (run ops).1 (Op.disconnect conn)).2
                = [Msg.removeB (RemovePayload.one q.2)]
              ∧ q.2 ∈ (run ops).1.dynamic.map Body.id
              ∧ (stepOp (run ops).1 (Op.disconnect conn)).1.dynamic
                  = (run ops).1.dynamic.filter (fun b => b.id != q.2)
              ∧ ((stepOp (run ops).1 (Op.disconnect conn)).1.dynamic.all
                  (fun b => b.id != q.2)) = true
              ∧ (stepOp (run ops).1 (Op.disconnect conn)).1.sessions.find?
                  (fun r => r.1 == conn) = none) := by
  have h := run_inv ops
  have hdn : ((run ops).1.dynamic.map Body.id).Nodup := by
    have hn := h.sd_nodup
    rw [List.map_append] at hn
    exact hn.of_append_right
  constructor
  · intro hf
    exact stepOp_disconnect_none (run ops).1 conn hf
  · intro q hf
    have hfilter : (stepOp (run ops).1 (Op.disconnect conn)).1.dynamic
        = (run ops).1.dynamic.filter (fun b => b.id != q.2) := by
      rw [stepOp_disconnect_some (run ops).1 conn q hf]
      dsimp only
      exact eraseP_id_eq_filter _ _ hdn
    refine ⟨?_, ?_, hfilter, ?_, ?_⟩
    · rw [stepOp_disconnect_some (run ops).1 conn q hf]
    · exact h.sessions_dyn q (List.mem_of_find?_eq_some hf)
    · rw [hfilter, List.all_eq_true]
      intro b hb
      exact (List.mem_filter.mp hb).2
    · rw [stepOp_disconnect_some (run ops).1 conn q hf]
      dsimp only
      rw [List.find?_eq_none]
      intro x hx
      have hxp := (List.mem_filter.mp hx).2
      simp only [bne_iff_ne] at hxp
      simp only [beq_iff_eq]
      exact hxp

/-- Claim C8: `renderInfo` is a pure projection producing exactly one
record per input body; each record carries the body's id, shape and
position, and carries `angle` if and only if the body's shape is
`player`. -/
theorem renderInfo_schema :
    (∀ object : Body ⊕ List Body,
        (renderInfo object).length = (concatObject object).length)
      ∧ (∀ object : Body ⊕ List Body,
          List.Forall₂ (fun (b : Body) (r : RenderRecord) =>
              r.id = b.id ∧ r.shape = b.shape ∧ r.position = b.position
                ∧ r.angle = (if b.shape = some playerShape then some b.angle else none))
            (concatObject object) (renderInfo object))
      ∧ (∀ b : Body, (renderInfoBody b).angle.isSome = (b.shape == some playerShape)) := by
  refine ⟨?_, ?_, ?_⟩
  · intro object
    rw [show renderInfo object = (concatObject object).map renderInfoBody from rfl,
        List.length_map]
  · intro object
    rw [show renderInfo object = (concatObject object).map renderInfoBody from rfl,
        List.forall₂_map_right_iff, List.forall₂_same]
    intro b hb
    exact ⟨rfl, rfl, rfl, rfl⟩
  · intro b
    by_cases hs : b.shape = some playerShape
    · simp [renderInfoBody, hs]
    · have hbeq : (b.shape == some playerShape) = false := by
        rw [beq_eq_false_iff_ne]
        exact hs
      simp [renderInfoBody, hs, hbeq]

/-- Claim C9: the tick broadcaster's rounding is idempotent: rounding a
coordinate to the nearest integer twice equals rounding once, and
rounding an angle to two decimal places twice equals rounding once. -/
theorem rounding_idempotent :
    (∀ q : ℚ, jsRound ((jsRound q : ℤ) : ℚ) = jsRound q)
      ∧ (∀ q : ℚ, round2 (round2 q) = round2 q) := by
  have hint : ∀ n : ℤ, jsRound ((n : ℤ) : ℚ) = n := by
    intro n
    simp only [jsRound]
    rw [add_comm, Int.floor_add_int]
    norm_num
  constructor
  · intro q
    exact hint (jsRound q)
  · intro q
    have hcancel : ((jsRound (q * 100) : ℤ) : ℚ) / 100 * 100
        = ((jsRound (q * 100) : ℤ) : ℚ) :=
      div_mul_cancel₀ _ (by norm_num)
    simp only [round2]
    rw [hcancel, hint]

/-- Claim C10: the private bootstrap snapshot sent on join is always a
sequence of render records — even when exactly one entity pre-exists —
while the singular unwrapping applies only to the public change-feed
`add` broadcast of a single body. -/
theorem snapshot_always_sequence :
    (∀ (ops : List Op) (conn : Nat) (nickname : String) (c : Nat) (p : AddPayload),
        Msg.snapshot c p ∈ (stepOp (run ops).1 (Op.join conn nickname)).2 →
          p.isBare = false
            ∧ p = AddPayload.many
                (renderInfo (Sum.inr ((run ops).1.static ++ (run ops).1.dynamic))))
      ∧ (∀ b : Body, (afterAdd (Sum.inl b)).isBare = true) := by
  constructor
  · intro ops conn nickname c p hmem
    rw [stepOp_join] at hmem
    dsimp only at hmem
    simp only [List.mem_append, List.mem_singleton, List.mem_ite_nil_right] at hmem
    rcases hmem with (hmem | ⟨_, hmem⟩) | hmem
    · simp at hmem
    · rw [Msg.snapshot.injEq] at hmem
      obtain ⟨-, rfl⟩ := hmem
      exact ⟨rfl, rfl⟩
    · simp at hmem
  · intro b
    rfl

end ToolmaxWorld
